import Mathlib

/-!
Verification of the cache/invalidation layer and derived-view computations of
the AgendaTaller web application (`app_web.py`).  The Python source is embedded
shallowly: the relational store is a pair of lists, the Flask-Caching cache is
a record of optional `(value, expiresAt)` entries, and each route handler that
the claims mention becomes a pure state-passing function translated line by
line from the source.  Dates are modelled as proleptic-Gregorian
`(year, month, day)` triples with calendar successor/predecessor functions
mirroring Python `datetime.date` plus/minus `timedelta(days=n)`.
-/

namespace AgendaTaller

/-! ### Calendar dates, mirroring Python `datetime.date` -/

structure Date where
  year : Nat
  month : Nat
  day : Nat
  deriving DecidableEq

def isLeap (y : Nat) : Bool :=
  (y % 4 == 0 && !(y % 100 == 0)) || y % 400 == 0

def daysInMonth (y m : Nat) : Nat :=
  if m == 2 then (if isLeap y then 29 else 28)
  else if m == 4 || m == 6 || m == 9 || m == 11 then 30
  else 31

/-- Calendar successor: `d + timedelta(days=1)`. -/
def nextDay (x : Date) : Date :=
  if x.day < daysInMonth x.year x.month then { x with day := x.day + 1 }
  else if x.month < 12 then { x with month := x.month + 1, day := 1 }
  else { year := x.year + 1, month := 1, day := 1 }

/-- Calendar predecessor: `d - timedelta(days=1)`; clamped at the bottom of
year 0, below the range Python can represent, so it is total. -/
def prevDay (x : Date) : Date :=
  if 1 < x.day then { x with day := x.day - 1 }
  else if 1 < x.month then { x with month := x.month - 1, day := daysInMonth x.year (x.month - 1) }
  else if 1 ≤ x.year then { year := x.year - 1, month := 12, day := 31 }
  else x

/-- `d + timedelta(days=n)` for `n ≥ 0`. -/
def addDays (n : Nat) (d : Date) : Date :=
  match n with
  | 0 => d
  | k + 1 => addDays k (nextDay d)

/-- `d - timedelta(days=n)` for `n ≥ 0`. -/
def subDays (n : Nat) (d : Date) : Date :=
  match n with
  | 0 => d
  | k + 1 => subDays k (prevDay d)

/-- `d + timedelta(days=i)` for a possibly negative `i`. -/
def addDaysInt (d : Date) (i : Int) : Date :=
  if 0 ≤ i then addDays i.toNat d else subDays (-i).toNat d

/-- Cumulative day count before month `m` in a non-leap year. -/
def cumDaysBeforeMonth (m : Nat) : Nat :=
  match m with
  | 1 => 0 | 2 => 31 | 3 => 59 | 4 => 90 | 5 => 120 | 6 => 151
  | 7 => 181 | 8 => 212 | 9 => 243 | 10 => 273 | 11 => 304 | 12 => 334
  | _ => 0

/-- Rata-die style serial day number of a date; differences of serial numbers
are exact day distances, which is what Python `(a - b).days` returns. -/
def serial (d : Date) : Nat :=
  365 * (d.year - 1) + (d.year - 1) / 4 - (d.year - 1) / 100 + (d.year - 1) / 400
    + cumDaysBeforeMonth d.month
    + (if 2 < d.month && isLeap d.year then 1 else 0) + d.day

/-- `(a - b).days` on Python dates. -/
def days_between (a b : Date) : Int :=
  (serial a : Int) - (serial b : Int)

/-- Calendar (lexicographic) order on dates, the order Python uses. -/
def Date.Le (a b : Date) : Prop :=
  a.year < b.year ∨ (a.year = b.year ∧
    (a.month < b.month ∨ (a.month = b.month ∧ a.day ≤ b.day)))

def Date.Lt (a b : Date) : Prop :=
  a.year < b.year ∨ (a.year = b.year ∧
    (a.month < b.month ∨ (a.month = b.month ∧ a.day < b.day)))

instance (a b : Date) : Decidable (Date.Le a b) := by
  unfold Date.Le; infer_instance

instance (a b : Date) : Decidable (Date.Lt a b) := by
  unfold Date.Lt; infer_instance

theorem Date.le_refl (a : Date) : Date.Le a a := by
  unfold Date.Le; omega

theorem Date.le_trans {a b c : Date} (h1 : Date.Le a b) (h2 : Date.Le b c) :
    Date.Le a c := by
  unfold Date.Le at *; omega

/-- `fecha.replace(day=1)`: the first day of the month of a date. -/
def monthStart (d : Date) : Date :=
  { d with day := 1 }

theorem monthStart_prevDay_le (d : Date) :
    Date.Le (monthStart (prevDay d)) (monthStart d) := by
  unfold prevDay monthStart Date.Le
  split
  · simp <;> omega
  · split
    · simp <;> omega
    · split
      · simp <;> omega
      · simp <;> omega

theorem monthStart_subDays_le (n : Nat) (d : Date) :
    Date.Le (monthStart (subDays n d)) (monthStart d) := by
  induction n generalizing d with
  | zero => exact Date.le_refl _
  | succ k ih =>
      exact Date.le_trans (ih (prevDay d)) (monthStart_prevDay_le d)

theorem subDays_add (a b : Nat) (d : Date) :
    subDays (a + b) d = subDays a (subDays b d) := by
  induction b generalizing d with
  | zero => rfl
  | succ k ih =>
      have h : a + (k + 1) = (a + k) + 1 := by omega
      rw [h]
      show subDays (a + k) (prevDay d) = subDays a (subDays (k + 1) d)
      rw [ih (prevDay d)]
      rfl

theorem monthStart_subDays_mono {m n : Nat} (h : m ≤ n) (d : Date) :
    Date.Le (monthStart (subDays n d)) (monthStart (subDays m d)) := by
  have h2 : n = (n - m) + m := by omega
  rw [h2, subDays_add]
  exact monthStart_subDays_le (n - m) (subDays m d)

/-! ### Data model: the two persistent entities (`Equipment`, `Job`) -/

structure Equipment where
  id : Nat
  marca : String
  modelo : String
  anio : Nat
  n_serie : String
  propietario : Option String
  vehiculo : Option String
  dominio : Option String
  notes : Option String
  deriving DecidableEq

structure Job where
  id : Nat
  equipment : Nat
  date_done : Date
  description : String
  budget : Int
  next_service_days : Option Int
  next_service_date : Option Date
  notes : Option String
  deriving DecidableEq

/-- The relational store: the two tables plus the id the next created job
receives. -/
structure Store where
  equipos : List Equipment
  jobs : List Job
  next_job_id : Nat
  deriving DecidableEq

/-! ### Derived-view result shapes -/

def statusDanger : String := "danger"
def statusWarning : String := "warning"
def statusSuccess : String := "success"

structure UpcomingRow where
  equipment : String
  propietario : Option String
  date : Date
  days_left : Int
  budget : Int
  status : String
  deriving DecidableEq

structure UpcomingResult where
  upcoming_services : List UpcomingRow
  total_upcoming : Nat
  services_vencidos : Nat
  deriving DecidableEq

structure AutocompleteResult where
  marcas : List String
  modelos : List String
  propietarios : List String
  deriving DecidableEq

/-! ### Cache layer: one optional `(value, expiresAt)` entry per memoized view,
plus the dashboard page entry keyed `view//`. -/

structure Cache where
  equipment_count : Option (Nat × Nat)
  jobs_count : Option (Nat × Nat)
  upcoming : Option (UpcomingResult × Nat)
  autocomplete : Option (AutocompleteResult × Nat)
  dashboard : Option (Unit × Nat)
  deriving DecidableEq

def emptyCache : Cache :=
  { equipment_count := none, jobs_count := none, upcoming := none
  , autocomplete := none, dashboard := none }

/-- A lookup is a hit iff the entry exists and has not expired. -/
def is_hit {α : Type} (entry : Option (α × Nat)) (now : Nat) : Bool :=
  match entry with
  | some (_, exp) => decide (now < exp)
  | none => false

/-! ### Aggregation engine -/

def jobsOf (s : Store) (eqId : Nat) : List Job :=
  s.jobs.filter (fun j => j.equipment == eqId)

/-- `Job.select().where(Job.equipment == eq).order_by(Job.date_done.desc()).first()`:
the job of the equipment with the maximum `date_done` (first scanned wins ties). -/
def last_job (s : Store) (eqId : Nat) : Option Job :=
  (jobsOf s eqId).foldl
    (fun acc j =>
      match acc with
      | none => some j
      | some k => if serial k.date_done < serial j.date_done then some j else acc)
    none

def status_of (dl : Int) : String :=
  if dl < 0 then statusDanger else if dl < 7 then statusWarning else statusSuccess

def eq_label (e : Equipment) : String :=
  e.marca ++ " " ++ e.modelo ++ " (" ++ toString e.anio ++ ")"

/-- The row appended for one equipment in the `get_cached_upcoming_services`
loop, when its latest job has a scheduled next-service date.  Note the source
appends the row for EVERY such equipment, with no `days_left` bound. -/
def upcomingRows (s : Store) (today : Date) : List UpcomingRow :=
  s.equipos.filterMap (fun e =>
    match last_job s e.id with
    | none => none
    | some j =>
      match j.next_service_date with
      | none => none
      | some nsd =>
        let dl := days_between nsd today
        some { equipment := eq_label e, propietario := e.propietario, date := nsd
             , days_left := dl, budget := j.budget, status := status_of dl })

/-- Stable insertion used to model Python `list.sort(key=lambda x: x.days_left)`. -/
def insertRow (a : UpcomingRow) : List UpcomingRow → List UpcomingRow
  | [] => [a]
  | b :: l => if a.days_left ≤ b.days_left then a :: b :: l else b :: insertRow a l

def sortRows (l : List UpcomingRow) : List UpcomingRow :=
  l.foldr insertRow []

/-- The body of `get_cached_upcoming_services` (the `try` block). -/
def compute_upcoming (s : Store) (today : Date) : UpcomingResult :=
  let rows := upcomingRows s today
  { upcoming_services := sortRows rows
  , total_upcoming := (rows.filter (fun r => decide (r.days_left ≤ 30))).length
  , services_vencidos := (rows.filter (fun r => decide (r.days_left < 0))).length }

/-- The `except` fallback shape of `get_cached_upcoming_services`. -/
def degraded_upcoming : UpcomingResult :=
  { upcoming_services := [], total_upcoming := 0, services_vencidos := 0 }

/-- The body of `get_cached_equipment_autocomplete` (the `try` block). -/
def compute_autocomplete (s : Store) : AutocompleteResult :=
  { marcas := (s.equipos.map (fun e => e.marca)).dedup
  , modelos := (s.equipos.map (fun e => e.modelo)).dedup
  , propietarios := ((s.equipos.filterMap (fun e => e.propietario)).filter
      (fun p => decide (p ≠ ""))).dedup }

/-- The `except` fallback shape of `get_cached_equipment_autocomplete`. -/
def degraded_autocomplete : AutocompleteResult :=
  { marcas := [], modelos := [], propietarios := [] }

/-! ### Memoized view getters.  `flask_caching` memoization: a miss runs the
function body and stores whatever it returns with `expires_at = now + ttl`.
The `err` flag models an aggregation step throwing inside the `try` block
(ComputationFailure); the source catches it INSIDE the memoized function and
returns the degraded shape, which the decorator then caches like any value. -/

def get_cached_upcoming_services (err : Bool) (s : Store) (today : Date)
    (c : Cache) (now : Nat) : UpcomingResult × Cache :=
  match c.upcoming with
  | some (v, exp) =>
    if now < exp then (v, c)
    else
      let v2 := if err then degraded_upcoming else compute_upcoming s today
      (v2, { c with upcoming := some (v2, now + 300) })
  | none =>
      let v2 := if err then degraded_upcoming else compute_upcoming s today
      (v2, { c with upcoming := some (v2, now + 300) })

def get_cached_equipment_autocomplete (err : Bool) (s : Store)
    (c : Cache) (now : Nat) : AutocompleteResult × Cache :=
  match c.autocomplete with
  | some (v, exp) =>
    if now < exp then (v, c)
    else
      let v2 := if err then degraded_autocomplete else compute_autocomplete s
      (v2, { c with autocomplete := some (v2, now + 1800) })
  | none =>
      let v2 := if err then degraded_autocomplete else compute_autocomplete s
      (v2, { c with autocomplete := some (v2, now + 1800) })

def get_cached_equipment_count (s : Store) (c : Cache) (now : Nat) :
    Nat × Cache :=
  match c.equipment_count with
  | some (v, exp) =>
    if now < exp then (v, c)
    else (s.equipos.length, { c with equipment_count := some (s.equipos.length, now + 600) })
  | none => (s.equipos.length, { c with equipment_count := some (s.equipos.length, now + 600) })

def get_cached_jobs_count (s : Store) (c : Cache) (now : Nat) : Nat × Cache :=
  match c.jobs_count with
  | some (v, exp) =>
    if now < exp then (v, c)
    else (s.jobs.length, { c with jobs_count := some (s.jobs.length, now + 600) })
  | none => (s.jobs.length, { c with jobs_count := some (s.jobs.length, now + 600) })

/-! ### Invalidation coordinator -/

def clear_cache_on_equipment_change (c : Cache) : Cache :=
  { c with equipment_count := none, autocomplete := none, upcoming := none
         , dashboard := none }

def clear_cache_on_job_change (c : Cache) : Cache :=
  { c with jobs_count := none, upcoming := none, dashboard := none }

/-! ### Write endpoints.  Each handler is a function on the whole application
state (store + cache); a handler that never calls a cache function returns the
cache component unchanged, exactly as in the source. -/

structure AppState where
  store : Store
  cache : Cache
  deriving DecidableEq

/-- A parsed job form: `date_done`, `description`, `budget` (default 0),
optional `next_service_days` (absent when the field is empty), `notes`. -/
structure JobForm where
  date_done : Date
  description : String
  budget : Int
  next_service_days : Option Int
  notes : Option String
  deriving DecidableEq

inductive WriteOutcome where
  | created : Nat → WriteOutcome
  | updated : WriteOutcome
  | deleted : WriteOutcome
  | notFound : WriteOutcome
  | validationError : WriteOutcome
  deriving DecidableEq

/-- `next_date = date_done + timedelta(days=next_days) if next_days else None`.
Python truthiness: both `None` and `0` take the `else` branch. -/
def next_date_of (d : Date) (nd : Option Int) : Option Date :=
  match nd with
  | some n => if n = 0 then none else some (addDaysInt d n)
  | none => none

def mk_job (jid eqId : Nat) (f : JobForm) : Job :=
  { id := jid, equipment := eqId, date_done := f.date_done
  , description := f.description, budget := f.budget
  , next_service_days := f.next_service_days
  , next_service_date := next_date_of f.date_done f.next_service_days
  , notes := f.notes }

def append_job (s : Store) (eqId : Nat) (f : JobForm) : Store :=
  { s with jobs := s.jobs ++ [mk_job s.next_job_id eqId f]
         , next_job_id := s.next_job_id + 1 }

/-- POST `/trabajo/nuevo` (`trabajo_new_global`): looks the equipment up
(`get_by_id` raises when absent, so nothing is created), creates the job and
redirects.  No date validation and no cache call appear in the handler. -/
def trabajo_new_global (app : AppState) (eqId : Nat) (f : JobForm) :
    WriteOutcome × AppState :=
  if app.store.equipos.any (fun e => e.id == eqId) then
    (WriteOutcome.created app.store.next_job_id,
     { app with store := append_job app.store eqId f })
  else (WriteOutcome.notFound, app)

/-- POST `/trabajo/nuevo/<equipo_id>` (`trabajo_new`): after form validation
(`validate_job_data`, an external collaborator modelled as the already-parsed
`JobForm`), the handler itself rejects a `date_done` strictly in the future;
otherwise it creates the job.  No cache call appears in the handler. -/
def trabajo_new (app : AppState) (eqId : Nat) (f : JobForm) (today : Date) :
    WriteOutcome × AppState :=
  if app.store.equipos.any (fun e => e.id == eqId) then
    if Date.Lt today f.date_done then (WriteOutcome.validationError, app)
    else
      (WriteOutcome.created app.store.next_job_id,
       { app with store := append_job app.store eqId f })
  else (WriteOutcome.notFound, app)

/-- POST `/trabajo/<trabajo_id>/editar` (`trabajo_edit`): overwrites the job
fields from the raw form, recomputing `next_service_date` with the same
truthiness rule.  No future-date check and no cache call appear. -/
def trabajo_edit (app : AppState) (jid : Nat) (f : JobForm) :
    WriteOutcome × AppState :=
  if app.store.jobs.any (fun j => j.id == jid) then
    (WriteOutcome.updated,
     { app with store := { app.store with jobs := app.store.jobs.map (fun j =>
        if j.id == jid then
          { j with date_done := f.date_done, description := f.description
                 , budget := f.budget, next_service_days := f.next_service_days
                 , next_service_date := next_date_of f.date_done f.next_service_days
                 , notes := f.notes }
        else j) } })
  else (WriteOutcome.notFound, app)

/-- POST `/trabajo/<trabajo_id>/eliminar` (`trabajo_delete`): deletes the row
and redirects.  No cache call appears in the handler. -/
def trabajo_delete (app : AppState) (jid : Nat) : WriteOutcome × AppState :=
  if app.store.jobs.any (fun j => j.id == jid) then
    (WriteOutcome.deleted,
     { app with store := { app.store with
         jobs := app.store.jobs.filter (fun j => !(j.id == jid)) } })
  else (WriteOutcome.notFound, app)

inductive RenameOutcome where
  | missingName : RenameOutcome
  | noChange : RenameOutcome
  | conflict : RenameOutcome
  | renamed : Nat → RenameOutcome
  deriving DecidableEq

/-- Python `str.strip()`: drop leading and trailing whitespace.  Implemented
structurally over the character list so that it evaluates inside the kernel. -/
def pyStrip (s : String) : String :=
  ⟨((s.data.dropWhile Char.isWhitespace).reverse.dropWhile Char.isWhitespace).reverse⟩

/-- POST `/cliente/<nombre>/editar` (`cliente_edit`): strips the submitted
name; rejects an empty name; a name equal to the current one is a no-op
success; an owner name already used by some equipment is a Conflict; otherwise
every equipment row owned by `nombre` is updated and
`clear_cache_on_equipment_change` runs. -/
def cliente_edit (app : AppState) (nombre : String) (nuevo_raw : String) :
    RenameOutcome × AppState :=
  if pyStrip nuevo_raw = "" then (RenameOutcome.missingName, app)
  else if pyStrip nuevo_raw = nombre then (RenameOutcome.noChange, app)
  else if app.store.equipos.any (fun e => e.propietario == some (pyStrip nuevo_raw)) then
    (RenameOutcome.conflict, app)
  else
    (RenameOutcome.renamed
       ((app.store.equipos.filter (fun e => e.propietario == some nombre)).length),
     { store := { app.store with equipos := app.store.equipos.map (fun e =>
         if e.propietario == some nombre then { e with propietario := some (pyStrip nuevo_raw) }
         else e) }
     , cache := clear_cache_on_equipment_change app.cache })

/-! ### `estadisticas`: the trailing-12-months spend buckets (`gastos_mes`) -/

structure MonthBucket where
  label_month : Nat
  label_year : Nat
  start : Date
  fin : Date
  total : Int
  deriving DecidableEq

def sum_budget_between (s : Store) (a b : Date) : Int :=
  ((s.jobs.filter (fun j => decide (Date.Le a j.date_done) &&
      decide (Date.Le j.date_done b))).map (fun j => j.budget)).sum

/-- One iteration of the `gastos_mes` loop for anchor index `i`:
`fecha = now - timedelta(days=i*30)`, `mes_inicio = fecha.replace(day=1)`,
`mes_fin = today` when `i = 0` and otherwise the last day of the anchor's
month (`(mes_inicio + 32 days).replace(day=1) - 1 day`). -/
def month_bucket (s : Store) (today : Date) (i : Nat) : MonthBucket :=
  let fecha := subDays (i * 30) today
  let mes_inicio := monthStart fecha
  let mes_fin :=
    if i = 0 then today
    else prevDay (monthStart (addDays 32 mes_inicio))
  { label_month := fecha.month, label_year := fecha.year
  , start := mes_inicio, fin := mes_fin
  , total := sum_budget_between s mes_inicio mes_fin }

/-- `for i in range(11, -1, -1)`: buckets appended oldest first. -/
def gastos_mes (s : Store) (today : Date) : List MonthBucket :=
  (List.range 12).map (fun k => month_bucket s today (11 - k))

/-! ### Concrete fixtures used by witnesses and counterexamples -/

def ownerA : String := "A"
def ownerB : String := "B"
def brandBosch : String := "Bosch"
def modelM1 : String := "M1"
def serialSN1 : String := "SN1"
def descService : String := "service"

def equipBosch : Equipment :=
  { id := 1, marca := brandBosch, modelo := modelM1, anio := 2020
  , n_serie := serialSN1, propietario := none, vehiculo := none
  , dominio := none, notes := none }

def equipOwnedA : Equipment :=
  { equipBosch with propietario := some ownerA }

/-- Scenario jobs J1 and J2 of the spec (section 8). -/
def jobJ1 : Job :=
  { id := 1, equipment := 1, date_done := ⟨2024, 1, 10⟩
  , description := descService, budget := 100, next_service_days := some 30
  , next_service_date := some ⟨2024, 2, 9⟩, notes := none }

def jobJ2 : Job :=
  { id := 2, equipment := 1, date_done := ⟨2024, 2, 1⟩
  , description := descService, budget := 50, next_service_days := some 15
  , next_service_date := some ⟨2024, 2, 16⟩, notes := none }

def storeScenario : Store :=
  { equipos := [equipBosch], jobs := [jobJ1, jobJ2], next_job_id := 3 }

def todayScenario : Date := ⟨2024, 2, 10⟩

/-- A job whose next service is 100 days past the reference date 2024-01-01. -/
def jobFar : Job :=
  { id := 1, equipment := 1, date_done := ⟨2024, 1, 1⟩
  , description := descService, budget := 10, next_service_days := some 100
  , next_service_date := some ⟨2024, 4, 10⟩, notes := none }

def storeFar : Store :=
  { equipos := [equipBosch], jobs := [jobFar], next_job_id := 2 }

def todayFar : Date := ⟨2024, 1, 1⟩

/-- A fully populated cache that has not expired at `now = 0`. -/
def fullCache : Cache :=
  { equipment_count := some (1, 600)
  , jobs_count := some (2, 600)
  , upcoming := some (degraded_upcoming, 300)
  , autocomplete := some (degraded_autocomplete, 1800)
  , dashboard := some ((), 300) }

def appOwnedA : AppState :=
  { store := { equipos := [equipOwnedA], jobs := [], next_job_id := 1 }
  , cache := fullCache }

def appScenario : AppState :=
  { store := storeScenario, cache := fullCache }

def formPlain : JobForm :=
  { date_done := ⟨2024, 1, 10⟩, description := descService, budget := 20
  , next_service_days := none, notes := none }

def formZeroInterval : JobForm :=
  { formPlain with next_service_days := some 0 }

def formFuture : JobForm :=
  { formPlain with date_done := ⟨2024, 3, 1⟩ }

def storeEmpty : Store :=
  { equipos := [], jobs := [], next_job_id := 1 }

def todayMarch31 : Date := ⟨2024, 3, 31⟩

def serialSN2 : String := "SN2"

def equipOwnedB : Equipment :=
  { equipBosch with id := 2, n_serie := serialSN2, propietario := some ownerB }

def appTwoOwners : AppState :=
  { store := { equipos := [equipOwnedA, equipOwnedB], jobs := [], next_job_id := 1 }
  , cache := fullCache }

/-- A job dated inside February 2024, the month the 30-day anchors skip when
today is 2024-03-31. -/
def jobFeb : Job :=
  { id := 1, equipment := 1, date_done := ⟨2024, 2, 15⟩
  , description := descService, budget := 7, next_service_days := none
  , next_service_date := none, notes := none }

def storeFeb : Store :=
  { equipos := [equipBosch], jobs := [jobFeb], next_job_id := 2 }

def appFar : AppState :=
  { store := storeFar, cache := emptyCache }

/-! ### Supporting lemmas about the stable sort and the latest-job fold -/

theorem insertRow_perm (a : UpcomingRow) (l : List UpcomingRow) :
    List.Perm (insertRow a l) (a :: l) := by
  induction l with
  | nil => exact List.Perm.refl _
  | cons b t ih =>
      unfold insertRow
      split
      · exact List.Perm.refl _
      · exact (ih.cons b).trans (List.Perm.swap a b t)

theorem sortRows_perm (l : List UpcomingRow) : List.Perm (sortRows l) l := by
  induction l with
  | nil => exact List.Perm.refl _
  | cons a t ih =>
      show List.Perm (insertRow a (sortRows t)) (a :: t)
      exact (insertRow_perm a (sortRows t)).trans (ih.cons a)

theorem insertRow_pairwise {l : List UpcomingRow} (a : UpcomingRow)
    (h : l.Pairwise (fun x y => x.days_left ≤ y.days_left)) :
    (insertRow a l).Pairwise (fun x y => x.days_left ≤ y.days_left) := by
  induction l with
  | nil => simp [insertRow]
  | cons b t ih =>
      rw [List.pairwise_cons] at h
      obtain ⟨hb, ht⟩ := h
      unfold insertRow
      split
      · rename_i hab
        refine List.Pairwise.cons ?_ (List.Pairwise.cons hb ht)
        intro y hy
        rcases List.mem_cons.mp hy with hyb | hyt
        · subst hyb; exact hab
        · exact le_trans hab (hb y hyt)
      · rename_i hnab
        have hba : b.days_left ≤ a.days_left := by omega
        refine List.Pairwise.cons ?_ (ih ht)
        intro y hy
        have hy2 : y ∈ a :: t := ((insertRow_perm a t).mem_iff).mp hy
        rcases List.mem_cons.mp hy2 with hya | hyt
        · subst hya; exact hba
        · exact hb y hyt

theorem sortRows_pairwise (l : List UpcomingRow) :
    (sortRows l).Pairwise (fun x y => x.days_left ≤ y.days_left) := by
  induction l with
  | nil => simp [sortRows]
  | cons a t ih => exact insertRow_pairwise a ih

/-- The fold underlying `last_job`, generalized over the accumulator. -/
def pickLater (acc : Option Job) (l : List Job) : Option Job :=
  l.foldl
    (fun acc j =>
      match acc with
      | none => some j
      | some k => if serial k.date_done < serial j.date_done then some j else acc)
    acc

theorem last_job_eq_pickLater (s : Store) (eqId : Nat) :
    last_job s eqId = pickLater none (jobsOf s eqId) := rfl

theorem pickLater_mem (l : List Job) :
    ∀ (acc : Option Job) (j : Job), pickLater acc l = some j →
      j ∈ l ∨ acc = some j := by
  induction l with
  | nil => intro acc j h; exact Or.inr h
  | cons a t ih =>
      intro acc j h
      have h2 := ih _ j h
      rcases h2 with hm | hacc
      · exact Or.inl (List.mem_cons_of_mem a hm)
      · match acc with
        | none =>
            simp only at hacc
            exact Or.inl (List.mem_cons.mpr (Or.inl (Option.some.inj hacc).symm))
        | some k =>
            simp only at hacc
            split at hacc
            · exact Or.inl (List.mem_cons.mpr (Or.inl (Option.some.inj hacc).symm))
            · exact Or.inr hacc

theorem pickLater_max (l : List Job) :
    ∀ (acc : Option Job) (j : Job), pickLater acc l = some j →
      (∀ x ∈ l, serial x.date_done ≤ serial j.date_done) ∧
      (∀ k, acc = some k → serial k.date_done ≤ serial j.date_done) := by
  induction l with
  | nil =>
      intro acc j h
      constructor
      · intro x hx; cases hx
      · intro k hk
        rw [hk] at h
        rw [Option.some.inj h]
  | cons a t ih =>
      intro acc j h
      have h2 := ih _ j h
      obtain ⟨hl, hacc2⟩ := h2
      have hstep : ∀ m, (match acc with
          | none => some a
          | some k => if serial k.date_done < serial a.date_done then some a else acc)
            = some m → serial m.date_done ≤ serial j.date_done := hacc2
      have ha : serial a.date_done ≤ serial j.date_done := by
        match acc with
        | none => exact hstep a rfl
        | some k =>
            by_cases hc : serial k.date_done < serial a.date_done
            · exact hstep a (by simp only [if_pos hc])
            · have hk := hstep k (by simp only [if_neg hc])
              omega
      refine ⟨?_, ?_⟩
      · intro x hx
        rcases List.mem_cons.mp hx with hxa | hxt
        · subst hxa; exact ha
        · exact hl x hxt
      · intro k hk
        subst hk
        by_cases hc : serial k.date_done < serial a.date_done
        · omega
        · exact hstep k (by simp only [if_neg hc])

theorem last_job_mem {s : Store} {eqId : Nat} {j : Job}
    (h : last_job s eqId = some j) : j ∈ jobsOf s eqId := by
  rcases pickLater_mem (jobsOf s eqId) none j h with hm | hacc
  · exact hm
  · cases hacc

theorem last_job_max {s : Store} {eqId : Nat} {j : Job}
    (h : last_job s eqId = some j) :
    ∀ x ∈ jobsOf s eqId, serial x.date_done ≤ serial j.date_done :=
  (pickLater_max (jobsOf s eqId) none j h).1

theorem last_job_nonempty {s : Store} {eqId : Nat} {j : Job}
    (h : last_job s eqId = some j) : jobsOf s eqId ≠ [] := by
  intro h0
  have := last_job_mem h
  rw [h0] at this
  cases this

/-! ### Claim theorems -/

/-- C1: the claim states that every job write committed through the job
endpoints runs the invalidation coordinator synchronously and deletes the
job-count, upcoming-services and dashboard cache keys.  The code defines
`clear_cache_on_job_change` for exactly that purpose but none of the four job
endpoints calls it: each handler returns the cache unchanged, so a populated
job-count, upcoming-services or dashboard entry survives the write and the
next read is a (stale) hit, not a guaranteed miss.  The second conjunct
evaluates the code on a concrete populated cache. -/
theorem C1_job_endpoints_do_not_invalidate :
    (∀ (app : AppState) (eqId jid : Nat) (f : JobForm) (today : Date),
      (trabajo_new_global app eqId f).2.cache = app.cache ∧
      (trabajo_new app eqId f today).2.cache = app.cache ∧
      (trabajo_edit app jid f).2.cache = app.cache ∧
      (trabajo_delete app jid).2.cache = app.cache) ∧
    ((trabajo_new_global appScenario 1 formPlain).1 = WriteOutcome.created 3 ∧
     (trabajo_new_global appScenario 1 formPlain).2.store.jobs.length = 3 ∧
     (trabajo_new_global appScenario 1 formPlain).2.cache.jobs_count = some (2, 600) ∧
     is_hit (trabajo_new_global appScenario 1 formPlain).2.cache.jobs_count 0 = true ∧
     (trabajo_new_global appScenario 1 formPlain).2.cache.upcoming
        = some (degraded_upcoming, 300) ∧
     (trabajo_new_global appScenario 1 formPlain).2.cache.dashboard = some ((), 300)) := by
  constructor
  · intro app eqId jid f today
    refine ⟨?_, ?_, ?_, ?_⟩
    · unfold trabajo_new_global; split <;> rfl
    · unfold trabajo_new
      split
      · split <;> rfl
      · rfl
    · unfold trabajo_edit; split <;> rfl
    · unfold trabajo_delete; split <;> rfl
  · refine ⟨by decide, by decide, by decide, by decide, by decide, by decide⟩

/-- C3 counterexample: with the aggregation step throwing (the `except` branch
taken) on a cache miss, the memoized `get_cached_upcoming_services` does store
a cache entry holding the degraded value, contradicting the claim that a
failed computation populates no cache entry. -/
theorem C3_counterexample :
    (get_cached_upcoming_services true storeScenario todayScenario emptyCache 0).2.upcoming
      = some (degraded_upcoming, 300) ∧
    (get_cached_equipment_autocomplete true storeScenario emptyCache 0).2.autocomplete
      = some (degraded_autocomplete, 1800) :=
  ⟨rfl, rfl⟩

/-- C3 (amended): when an aggregation step throws during a cached view
computation, the view does degrade to its documented empty/default shape, but
because the exception is caught inside the memoized function the degraded
value IS stored as a normal cache entry with the view's TTL. -/
theorem C3_amended_degraded_value_is_cached :
    ∀ (s : Store) (today : Date) (now : Nat),
      (get_cached_upcoming_services true s today emptyCache now).1 = degraded_upcoming ∧
      (get_cached_upcoming_services true s today emptyCache now).2.upcoming
        = some (degraded_upcoming, now + 300) ∧
      (get_cached_equipment_autocomplete true s emptyCache now).1 = degraded_autocomplete ∧
      (get_cached_equipment_autocomplete true s emptyCache now).2.autocomplete
        = some (degraded_autocomplete, now + 1800) :=
  fun _ _ _ => ⟨rfl, rfl, rfl, rfl⟩

/-- C9: the per-equipment creation endpoint `trabajo_new` rejects a submitted
`date_done` strictly greater than the current date with a validation error and
creates no job row, while `trabajo_new_global` and `trabajo_edit` perform no
future-date check and commit the same data. -/
theorem C9_future_date_check_only_in_trabajo_new :
    ∀ (app : AppState) (eqId jid : Nat) (f : JobForm) (today : Date),
      app.store.equipos.any (fun e => e.id == eqId) = true →
      Date.Lt today f.date_done →
      trabajo_new app eqId f today = (WriteOutcome.validationError, app) ∧
      (trabajo_new_global app eqId f).1 = WriteOutcome.created app.store.next_job_id ∧
      (trabajo_new_global app eqId f).2.store.jobs
        = app.store.jobs ++ [mk_job app.store.next_job_id eqId f] ∧
      (app.store.jobs.any (fun j => j.id == jid) = true →
        (trabajo_edit app jid f).1 = WriteOutcome.updated) := by
  intro app eqId jid f today hex hfut
  refine ⟨?_, ?_, ?_, ?_⟩
  · unfold trabajo_new
    rw [if_pos hex, if_pos hfut]
  · unfold trabajo_new_global
    rw [if_pos hex]
  · unfold trabajo_new_global
    rw [if_pos hex]
    rfl
  · intro hj
    unfold trabajo_edit
    rw [if_pos hj]

/-- C9 witness: concrete instantiation at the scenario store with a form dated
2024-03-01 while today is 2024-02-10. -/
theorem C9_witness :
    trabajo_new appScenario 1 formFuture todayScenario
      = (WriteOutcome.validationError, appScenario) ∧
    (trabajo_new_global appScenario 1 formFuture).1 = WriteOutcome.created 3 ∧
    (trabajo_edit appScenario 1 formFuture).1 = WriteOutcome.updated := by
  have h := C9_future_date_check_only_in_trabajo_new appScenario 1 1 formFuture
    todayScenario (by decide) (by decide)
  exact ⟨h.1, h.2.1, h.2.2.2 (by decide)⟩

/-- C10: renaming an owner to their current (stripped) name is a no-op
success: the handler returns before the conflict check, updates no equipment
row, invalidates no cache key, and signals no conflict, even when equipment
with that owner already exists. -/
theorem C10_rename_to_same_name_is_noop :
    ∀ (app : AppState) (nombre v : String),
      pyStrip v = nombre → nombre ≠ "" →
      (∃ e ∈ app.store.equipos, e.propietario = some nombre) →
      cliente_edit app nombre v = (RenameOutcome.noChange, app) := by
  intro app nombre v htrim hne hex
  unfold cliente_edit
  rw [htrim, if_neg hne, if_pos rfl]

/-- C10 witness: renaming owner A to A on a store that has an equipment owned
by A leaves outcome, store and cache untouched. -/
theorem C10_witness :
    cliente_edit appOwnedA ownerA ownerA = (RenameOutcome.noChange, appOwnedA) :=
  C10_rename_to_same_name_is_noop appOwnedA ownerA ownerA (by decide) (by decide)
    (by decide)

/-- C4 counterexample: a successful owner rename (`cliente_edit` POST) calls
`clear_cache_on_equipment_change`, which deletes the equipment-count entry:
before the rename the entry is a live hit, afterwards it is gone and the next
`get_cached_equipment_count` is a miss — contradicting the claim that the
equipment-count cache entry stays untouched. -/
theorem C4_counterexample :
    is_hit appOwnedA.cache.equipment_count 0 = true ∧
    (cliente_edit appOwnedA ownerA ownerB).1 = RenameOutcome.renamed 1 ∧
    (cliente_edit appOwnedA ownerA ownerB).2.cache.equipment_count = none ∧
    is_hit (cliente_edit appOwnedA ownerA ownerB).2.cache.equipment_count 0 = false := by
  refine ⟨by decide, by decide, by decide, by decide⟩

/-- C4 (amended): the owner-rename write event reuses the equipment-change
invalidation set: a successful rename deletes the equipment-count,
autocomplete-vocabulary, upcoming-services and dashboard cache entries (so the
next equipment-count read is a miss, never a hit), and leaves only the
job-count entry untouched. -/
theorem C4_amended_rename_uses_equipment_invalidation :
    ∀ (app : AppState) (nombre v : String) (k : Nat) (app2 : AppState),
      cliente_edit app nombre v = (RenameOutcome.renamed k, app2) →
      app2.cache.equipment_count = none ∧
      app2.cache.autocomplete = none ∧
      app2.cache.upcoming = none ∧
      app2.cache.dashboard = none ∧
      app2.cache.jobs_count = app.cache.jobs_count ∧
      (∀ now, is_hit app2.cache.equipment_count now = false) := by
  intro app nombre v k app2 h
  unfold cliente_edit at h
  split at h
  · simp at h
  · split at h
    · simp at h
    · split at h
      · simp at h
      · injection h with h1 h2
        subst h2
        exact ⟨rfl, rfl, rfl, rfl, rfl, fun _ => rfl⟩

/-- C4 witness: instantiation at a store with one equipment owned by A,
renamed to B, starting from a fully populated cache. -/
theorem C4_witness :
    (cliente_edit appOwnedA ownerA ownerB).2.cache.equipment_count = none ∧
    (cliente_edit appOwnedA ownerA ownerB).2.cache.autocomplete = none ∧
    (cliente_edit appOwnedA ownerA ownerB).2.cache.upcoming = none ∧
    (cliente_edit appOwnedA ownerA ownerB).2.cache.dashboard = none ∧
    (cliente_edit appOwnedA ownerA ownerB).2.cache.jobs_count = some (2, 600) :=
  have h := C4_amended_rename_uses_equipment_invalidation appOwnedA ownerA ownerB 1
    (cliente_edit appOwnedA ownerA ownerB).2 (by decide)
  ⟨h.1, h.2.1, h.2.2.1, h.2.2.2.1, h.2.2.2.2.1⟩

/-- C5 counterexample: renaming owner A to A while equipment owned by A exists
satisfies the claim's trigger — some equipment already has the new owner
name — yet `cliente_edit` answers with a no-op success, not a conflict. -/
theorem C5_counterexample :
    (∃ e ∈ appOwnedA.store.equipos, e.propietario = some ownerA) ∧
    (cliente_edit appOwnedA ownerA ownerA).1 = RenameOutcome.noChange ∧
    (cliente_edit appOwnedA ownerA ownerA).1 ≠ RenameOutcome.conflict ∧
    (cliente_edit appOwnedA ownerA ownerA).2 = appOwnedA := by
  refine ⟨by decide, by decide, by decide, by decide⟩

/-- C5 (amended): for a non-empty stripped new name different from the old
one, the rename has the stated precondition semantics: if some equipment
already has owner `new_name` the request is rejected with a conflict and the
whole state is unchanged; otherwise every equipment row owned by `old_name`
gets owner `new_name`, all other rows are untouched, and the number of
matching rows is reported.  When `new_name` equals `old_name` the request is
instead a no-op success (see C10), and an empty name is a validation error,
not a conflict. -/
theorem C5_amended_rename_precondition :
    ∀ (app : AppState) (nombre v : String),
      pyStrip v = v → v ≠ "" → v ≠ nombre →
      ((app.store.equipos.any (fun e => e.propietario == some v) = true →
          cliente_edit app nombre v = (RenameOutcome.conflict, app)) ∧
       (app.store.equipos.any (fun e => e.propietario == some v) = false →
          (cliente_edit app nombre v).1
            = RenameOutcome.renamed
                ((app.store.equipos.filter (fun e => e.propietario == some nombre)).length) ∧
          List.Forall₂ (fun e e2 =>
              (e.propietario = some nombre → e2 = { e with propietario := some v }) ∧
              (e.propietario ≠ some nombre → e2 = e))
            app.store.equipos (cliente_edit app nombre v).2.store.equipos)) := by
  intro app nombre v hstrip hne hnn
  constructor
  · intro hconf
    unfold cliente_edit
    rw [hstrip, if_neg hne, if_neg hnn, if_pos hconf]
  · intro hnc
    unfold cliente_edit
    rw [hstrip, if_neg hne, if_neg hnn, if_neg (by rw [hnc]; simp)]
    refine ⟨rfl, ?_⟩
    rw [List.forall₂_map_right_iff, List.forall₂_same]
    intro x hx
    by_cases hp : x.propietario = some nombre
    · have hb : (x.propietario == some nombre) = true := beq_iff_eq.mpr hp
      refine ⟨fun _ => ?_, fun hcon => absurd hp hcon⟩
      simp only [hb, if_true]
    · have hb : (x.propietario == some nombre) = false := by
        rw [Bool.eq_false_iff]
        intro hb2
        exact hp (beq_iff_eq.mp hb2)
      refine ⟨fun hcon => absurd hcon hp, fun _ => ?_⟩
      simp only [hb, Bool.false_eq_true, if_false]

/-- C5 witness: the conflict branch at a store with owners A and B, and the
success branch at a store with owner A only. -/
theorem C5_witness :
    cliente_edit appTwoOwners ownerA ownerB = (RenameOutcome.conflict, appTwoOwners) ∧
    (cliente_edit appOwnedA ownerA ownerB).1 = RenameOutcome.renamed 1 :=
  ⟨(C5_amended_rename_precondition appTwoOwners ownerA ownerB (by decide) (by decide)
      (by decide)).1 (by decide),
   ((C5_amended_rename_precondition appOwnedA ownerA ownerB (by decide) (by decide)
      (by decide)).2 (by decide)).1⟩

/-- C2 counterexample: a store whose only equipment has a last job scheduled
100 days out still contributes a row to the list returned by
`get_cached_upcoming_services` — the source appends rows unconditionally and
only filters the counters — refuting the claim that every returned row has
`days_left ≤ 30`. -/
theorem C2_counterexample :
    ∃ r ∈ (get_cached_upcoming_services false storeFar todayFar emptyCache 0).1.upcoming_services,
      30 < r.days_left := by decide

/-- Invariant relating a job's stored interval and stored next-due date, as
the write endpoints establish it: a present, nonzero interval yields
`next_due = date_done + interval`; an absent or zero interval yields no
next-due date. -/
def job_interval_invariant (j : Job) : Prop :=
  (∀ n, j.next_service_days = some n → n ≠ 0 →
      j.next_service_date = some (addDaysInt j.date_done n)) ∧
  (j.next_service_days = none → j.next_service_date = none) ∧
  (j.next_service_days = some 0 → j.next_service_date = none)

/-- C8 counterexample: submitting `next_service_days = 0` through
`trabajo_edit` stores the interval `0` (present) but, by Python truthiness,
no next-due date — so the stored next-due date is not
`date_performed + interval_days` although the interval is present. -/
theorem C8_counterexample :
    ∃ j ∈ (trabajo_edit appFar 1 formZeroInterval).2.store.jobs,
      j.next_service_days = some 0 ∧ j.next_service_date = none ∧
      j.next_service_date ≠ some (addDaysInt j.date_done 0) := by decide

theorem next_date_of_cases (d : Date) (nd : Option Int) :
    (∀ n, nd = some n → n ≠ 0 → next_date_of d nd = some (addDaysInt d n)) ∧
    (nd = none → next_date_of d nd = none) ∧
    (nd = some 0 → next_date_of d nd = none) := by
  refine ⟨?_, ?_, ?_⟩
  · intro n hn hnz
    subst hn
    show (if n = 0 then none else some (addDaysInt d n)) = some (addDaysInt d n)
    rw [if_neg hnz]
  · intro hn; subst hn; rfl
  · intro hn; subst hn; simp [next_date_of]

/-- C8 (amended): every job created or edited through the job endpoints
satisfies: when the submitted interval is present and nonzero the stored
next-due date equals `date_performed + interval_days`; when the interval is
absent — or submitted as `0`, which Python truthiness treats like absent while
still storing the interval value `0` — the next-due date is absent. -/
theorem C8_amended_next_due_tracks_nonzero_interval :
    ∀ (app : AppState) (eqId jid : Nat) (f : JobForm) (today : Date),
      (∀ j ∈ (trabajo_new_global app eqId f).2.store.jobs,
          j ∉ app.store.jobs → job_interval_invariant j) ∧
      (∀ j ∈ (trabajo_new app eqId f today).2.store.jobs,
          j ∉ app.store.jobs → job_interval_invariant j) ∧
      (∀ j ∈ (trabajo_edit app jid f).2.store.jobs,
          j.id = jid → job_interval_invariant j) := by
  intro app eqId jid f today
  have hmk : ∀ jid2, job_interval_invariant (mk_job jid2 eqId f) := by
    intro jid2
    have h := next_date_of_cases f.date_done f.next_service_days
    exact ⟨h.1, h.2.1, h.2.2⟩
  refine ⟨?_, ?_, ?_⟩
  · unfold trabajo_new_global
    split
    · intro j hj hnot
      rcases List.mem_append.mp hj with hold | hnew
      · exact absurd hold hnot
      · rw [List.mem_singleton.mp hnew]
        exact hmk _
    · intro j hj hnot
      exact absurd hj hnot
  · unfold trabajo_new
    split
    · split
      · intro j hj hnot
        exact absurd hj hnot
      · intro j hj hnot
        rcases List.mem_append.mp hj with hold | hnew
        · exact absurd hold hnot
        · rw [List.mem_singleton.mp hnew]
          exact hmk _
    · intro j hj hnot
      exact absurd hj hnot
  · unfold trabajo_edit
    split
    · intro j hj hid
      rcases List.mem_map.mp hj with ⟨j0, hj0, hj0e⟩
      by_cases hc : (j0.id == jid) = true
      · rw [if_pos hc] at hj0e
        subst hj0e
        have h := next_date_of_cases f.date_done f.next_service_days
        exact ⟨h.1, h.2.1, h.2.2⟩
      · rw [if_neg hc] at hj0e
        subst hj0e
        exact absurd (beq_iff_eq.mpr hid) hc
    · rename_i hno
      intro j hj hid
      have hfalse : app.store.jobs.any (fun j2 => j2.id == jid) = true := by
        rw [List.any_eq_true]
        exact ⟨j, hj, beq_iff_eq.mpr hid⟩
      exact absurd hfalse hno

/-- C8 witness: the invariant instantiated at the job created by
`trabajo_new_global` on the scenario store. -/
theorem C8_witness : job_interval_invariant (mk_job 3 1 formPlain) :=
  (C8_amended_next_due_tracks_nonzero_interval appScenario 1 1 formPlain
      todayScenario).1 (mk_job 3 1 formPlain) (by decide) (by decide)

/-- C2 (amended): the list returned by the upcoming-services view contains no
equipment with zero jobs and is sorted ascending by `days_left`, and the view
returns the computed result on a cache miss; however rows are NOT bounded by
`days_left ≤ 30` — only the `total_upcoming` counter is restricted to rows
with `days_left ≤ 30`. -/
theorem C2_amended_upcoming_shape :
    ∀ (s : Store) (today : Date) (now : Nat),
      (∀ r ∈ (compute_upcoming s today).upcoming_services,
        ∃ e ∈ s.equipos, r.equipment = eq_label e ∧ jobsOf s e.id ≠ []) ∧
      (compute_upcoming s today).upcoming_services.Pairwise
        (fun a b => a.days_left ≤ b.days_left) ∧
      (compute_upcoming s today).total_upcoming
        = ((compute_upcoming s today).upcoming_services.filter
            (fun r => decide (r.days_left ≤ 30))).length ∧
      (get_cached_upcoming_services false s today emptyCache now).1
        = compute_upcoming s today := by
  intro s today now
  refine ⟨?_, ?_, ?_, rfl⟩
  · intro r hr
    have hr1 : r ∈ sortRows (upcomingRows s today) := hr
    have hr2 : r ∈ upcomingRows s today := (sortRows_perm _).mem_iff.mp hr1
    obtain ⟨e, he, hfe⟩ := List.mem_filterMap.mp hr2
    cases hlj : last_job s e.id with
    | none => rw [hlj] at hfe; cases hfe
    | some j =>
      rw [hlj] at hfe
      have hfe2 : (match j.next_service_date with
          | none => none
          | some nsd =>
            let dl := days_between nsd today
            some { equipment := eq_label e, propietario := e.propietario, date := nsd
                 , days_left := dl, budget := j.budget, status := status_of dl })
          = some r := hfe
      cases hnsd : j.next_service_date with
      | none => rw [hnsd] at hfe2; cases hfe2
      | some nsd =>
        rw [hnsd] at hfe2
        have hre := Option.some.inj hfe2
        refine ⟨e, he, ?_, last_job_nonempty hlj⟩
        rw [← hre]
  · exact sortRows_pairwise (upcomingRows s today)
  · show (List.filter (fun r => decide (r.days_left ≤ 30)) (upcomingRows s today)).length
       = (List.filter (fun r => decide (r.days_left ≤ 30)) (sortRows (upcomingRows s today))).length
    exact (((sortRows_perm (upcomingRows s today)).filter _).length_eq).symm

/-- The single row the upcoming-services view derives from `storeFar`. -/
def rowFar : UpcomingRow :=
  { equipment := eq_label equipBosch, propietario := none, date := ⟨2024, 4, 10⟩
  , days_left := 100, budget := 10, status := statusSuccess }

/-- C2 witness: the no-zero-jobs conjunct instantiated at the concrete row the
view computes over `storeFar`. -/
theorem C2_witness :
    ∃ e ∈ storeFar.equipos, rowFar.equipment = eq_label e ∧ jobsOf storeFar e.id ≠ [] :=
  (C2_amended_upcoming_shape storeFar todayFar 0).1 rowFar (by decide)

/-- The scenario forecast row of spec section 8 as the code computes it. -/
def rowScenario : UpcomingRow :=
  { equipment := eq_label equipBosch, propietario := none, date := ⟨2024, 2, 16⟩
  , days_left := 6, budget := 50, status := statusWarning }

/-- C7: every forecast row is derived from the equipment's job with maximal
`date_performed`, statuses follow the tier rule (`danger` iff overdue,
`warning` iff `0 ≤ days_left < 7`, `success` iff `7 ≤ days_left`), and on the
concrete spec scenario (E1 with J1 and J2, today 2024-02-10) the view reports
the J2-derived row with next-due 2024-02-16, `days_left = 6`, status
due-soon, counted in `total_upcoming`. -/
theorem C7_forecast_from_latest_job_and_tier :
    (∀ (dl : Int),
      (status_of dl = statusDanger ↔ dl < 0) ∧
      (status_of dl = statusWarning ↔ 0 ≤ dl ∧ dl < 7) ∧
      (status_of dl = statusSuccess ↔ 7 ≤ dl)) ∧
    (∀ (s : Store) (today : Date),
      ∀ r ∈ (compute_upcoming s today).upcoming_services,
        r.status = status_of r.days_left ∧
        ∃ e ∈ s.equipos, ∃ j, last_job s e.id = some j ∧
          j ∈ jobsOf s e.id ∧
          (∀ x ∈ jobsOf s e.id, serial x.date_done ≤ serial j.date_done) ∧
          j.next_service_date = some r.date ∧
          r.days_left = days_between r.date today ∧
          r.equipment = eq_label e ∧ r.budget = j.budget) ∧
    compute_upcoming storeScenario todayScenario
      = { upcoming_services := [rowScenario], total_upcoming := 1
        , services_vencidos := 0 } := by
  refine ⟨?_, ?_, by decide⟩
  · intro dl
    unfold status_of
    split_ifs with h0 h7
    · refine ⟨⟨fun _ => h0, fun _ => rfl⟩, ?_, ?_⟩
      · exact ⟨fun he => absurd he (by decide), fun hc => absurd h0 (by omega)⟩
      · exact ⟨fun he => absurd he (by decide), fun hc => absurd h0 (by omega)⟩
    · refine ⟨?_, ⟨fun _ => ⟨by omega, h7⟩, fun _ => rfl⟩, ?_⟩
      · exact ⟨fun he => absurd he (by decide), fun hc => absurd hc h0⟩
      · exact ⟨fun he => absurd he (by decide), fun hc => absurd h7 (by omega)⟩
    · refine ⟨?_, ?_, ⟨fun _ => by omega, fun _ => rfl⟩⟩
      · exact ⟨fun he => absurd he (by decide), fun hc => absurd hc h0⟩
      · exact ⟨fun he => absurd he (by decide), fun hc => absurd hc.2 h7⟩
  · intro s today r hr
    have hr1 : r ∈ sortRows (upcomingRows s today) := hr
    have hr2 : r ∈ upcomingRows s today := (sortRows_perm _).mem_iff.mp hr1
    obtain ⟨e, he, hfe⟩ := List.mem_filterMap.mp hr2
    cases hlj : last_job s e.id with
    | none => rw [hlj] at hfe; cases hfe
    | some j =>
      rw [hlj] at hfe
      have hfe2 : (match j.next_service_date with
          | none => none
          | some nsd =>
            let dl := days_between nsd today
            some { equipment := eq_label e, propietario := e.propietario, date := nsd
                 , days_left := dl, budget := j.budget, status := status_of dl })
          = some r := hfe
      cases hnsd : j.next_service_date with
      | none => rw [hnsd] at hfe2; cases hfe2
      | some nsd =>
        rw [hnsd] at hfe2
        have hre := Option.some.inj hfe2
        constructor
        · rw [← hre]
        · refine ⟨e, he, j, hlj, last_job_mem hlj, last_job_max hlj, ?_, ?_, ?_, ?_⟩
          · rw [← hre]; exact hnsd
          · rw [← hre]
          · rw [← hre]
          · rw [← hre]

/-- C7 witness: the general row property instantiated at the scenario row. -/
theorem C7_witness :
    rowScenario.status = status_of rowScenario.days_left ∧
    ∃ e ∈ storeScenario.equipos, ∃ j, last_job storeScenario e.id = some j ∧
      j ∈ jobsOf storeScenario e.id ∧
      (∀ x ∈ jobsOf storeScenario e.id, serial x.date_done ≤ serial j.date_done) ∧
      j.next_service_date = some rowScenario.date ∧
      rowScenario.days_left = days_between rowScenario.date todayScenario ∧
      rowScenario.equipment = eq_label e ∧ rowScenario.budget = j.budget :=
  C7_forecast_from_latest_job_and_tier.2.1 storeScenario todayScenario rowScenario
    (by decide)

set_option maxRecDepth 8000 in
/-- C6 counterexample: with today = 2024-03-31 the 30-day anchors land twice
in January and twice in March 2024 and never in February, so consecutive
bucket starts repeat (not strictly increasing by one calendar month), and a
job dated 2024-02-15 — inside the trailing window — is counted by no bucket:
the bucket totals sum to 0 while the job costs 7. -/
theorem C6_counterexample :
    ((gastos_mes storeFeb todayMarch31).map (fun b => b.start))[10]?
      = some ⟨2024, 3, 1⟩ ∧
    ((gastos_mes storeFeb todayMarch31).map (fun b => b.start))[11]?
      = some ⟨2024, 3, 1⟩ ∧
    ((gastos_mes storeFeb todayMarch31).map (fun b => b.start))[8]?
      = some ⟨2024, 1, 1⟩ ∧
    ((gastos_mes storeFeb todayMarch31).map (fun b => b.start))[9]?
      = some ⟨2024, 1, 1⟩ ∧
    ¬ Date.Lt (⟨2024, 3, 1⟩ : Date) ⟨2024, 3, 1⟩ ∧
    ((gastos_mes storeFeb todayMarch31).map (fun b => b.total)).sum = 0 ∧
    (storeFeb.jobs.map (fun j => j.budget)).sum = 7 ∧
    Date.Le (subDays 330 todayMarch31) jobFeb.date_done ∧
    Date.Le jobFeb.date_done todayMarch31 := by
  refine ⟨by decide, by decide, by decide, by decide, by decide, by decide, by decide,
    by decide, by decide⟩

/-- C6 (amended): `gastos_mes` returns exactly 12 buckets, oldest first; each
bucket is anchored at `today − i·30 days`, starts on the first day of the
anchor's month, is labeled by the anchor's month and year, ends at `today` for
the newest bucket and at the last day of the anchor's month otherwise, and its
value sums the job costs within `[start, end]`; bucket starts are
nondecreasing — but not strictly increasing by one calendar month for every
`today` (see the counterexample), so jobs can be double-counted or missed. -/
theorem C6_amended_monthly_buckets :
    ∀ (s : Store) (today : Date),
      (gastos_mes s today).length = 12 ∧
      (∀ b ∈ gastos_mes s today, b.start.day = 1 ∧
          b.total = sum_budget_between s b.start b.fin ∧
          (∃ i, i < 12 ∧ b.start = monthStart (subDays (i * 30) today) ∧
                b.label_month = (subDays (i * 30) today).month ∧
                b.label_year = (subDays (i * 30) today).year ∧
                (i = 0 → b.fin = today) ∧
                (i ≠ 0 → b.fin = prevDay (monthStart (addDays 32 b.start))))) ∧
      List.Chain' (fun b1 b2 => Date.Le b1.start b2.start) (gastos_mes s today) := by
  intro s today
  refine ⟨by simp [gastos_mes], ?_, ?_⟩
  · intro b hb
    obtain ⟨k, hk, hbe⟩ := List.mem_map.mp hb
    have hk12 : k < 12 := List.mem_range.mp hk
    subst hbe
    refine ⟨rfl, rfl, 11 - k, by omega, rfl, rfl, rfl, ?_, ?_⟩
    · intro hi0
      show (if 11 - k = 0 then today
            else prevDay (monthStart (addDays 32 (monthStart (subDays ((11 - k) * 30) today)))))
          = today
      rw [if_pos hi0]
    · intro hi0
      show (if 11 - k = 0 then today
            else prevDay (monthStart (addDays 32 (monthStart (subDays ((11 - k) * 30) today)))))
          = prevDay (monthStart (addDays 32 (monthStart (subDays ((11 - k) * 30) today))))
      rw [if_neg hi0]
  · show List.Chain' (fun b1 b2 => Date.Le b1.start b2.start)
      ((List.range 12).map (fun k => month_bucket s today (11 - k)))
    rw [List.chain'_map]
    refine (List.chain'_range_succ _ 11).mpr ?_
    intro m hm
    exact monthStart_subDays_mono (by omega) today

set_option maxRecDepth 8000 in
/-- C6 witness: the per-bucket conjunct instantiated at the oldest bucket of
the February store as of 2024-03-31. -/
theorem C6_witness :
    (month_bucket storeFeb todayMarch31 11).start.day = 1 ∧
    (month_bucket storeFeb todayMarch31 11).total
      = sum_budget_between storeFeb (month_bucket storeFeb todayMarch31 11).start
          (month_bucket storeFeb todayMarch31 11).fin ∧
    (∃ i, i < 12 ∧
      (month_bucket storeFeb todayMarch31 11).start
        = monthStart (subDays (i * 30) todayMarch31) ∧
      (month_bucket storeFeb todayMarch31 11).label_month
        = (subDays (i * 30) todayMarch31).month ∧
      (month_bucket storeFeb todayMarch31 11).label_year
        = (subDays (i * 30) todayMarch31).year ∧
      (i = 0 → (month_bucket storeFeb todayMarch31 11).fin = todayMarch31) ∧
      (i ≠ 0 → (month_bucket storeFeb todayMarch31 11).fin
        = prevDay (monthStart (addDays 32 (month_bucket storeFeb todayMarch31 11).start)))) :=
  (C6_amended_monthly_buckets storeFeb todayMarch31).2.1
    (month_bucket storeFeb todayMarch31 11) (by decide)

end AgendaTaller
